import Mathlib

/-!
Verification development for the ZeGas repository.

The on-chain ledger is the Solidity contract ZegasSmartTransfer
(scheduleTransfer / executeTransfer / cancelTransfer / canExecuteJob /
getJob, plus the admin entry points).  It is embedded shallowly below:
uint256 values become Nat (with the Solidity 0.8 checked-arithmetic
reverts modelled explicitly where a product or difference can leave the
256-bit range), addresses become Nat (0 is the zero address and also the
native-asset sentinel), reverts become the error branch of Except, and
the environment a transaction observes (msg.sender, block.timestamp,
block.chainid, block.basefee, tx.gasprice, msg.value, and the success or
failure of the external value transfers the contract performs) is an
explicit Env record.  A transaction that reverts leaves the ledger state
unchanged and makes none of its value transfers observable, mirroring
EVM rollback semantics; the successful branch returns the new state
together with the list of outbound value transfers the call performed.

The off-chain watcher (RelayerService.monitorJob / executeJob) and the
network router (L2GasComparator.findCheapestNetwork) are embedded as
pure functions of the outcomes of their awaited calls.
-/

set_option maxHeartbeats 1000000

namespace Zegas

/-- One gwei in wei, mirroring the Solidity literal `1 gwei`. -/
def gwei : Nat := 1000000000

/-- First natural number outside the 256-bit range.  Solidity 0.8
checked arithmetic reverts when a result reaches this bound. -/
def UINT_MAX : Nat := 2 ^ 256

/-- Gas-price thresholds of a job (struct GasConditions). -/
structure GasConditions where
  maxBaseFeeGwei : Nat
  maxPriorityFeeGwei : Nat
  maxTotalFeeGwei : Nat
  enforceConditions : Bool
deriving DecidableEq

/-- Execution time constraints of a job (struct TimeWindow). -/
structure TimeWindow where
  startTime : Nat
  endTime : Nat
  executeOnExpiry : Bool
deriving DecidableEq

/-- A scheduled transfer job (struct TransferJob). -/
structure TransferJob where
  from_ : Nat
  to_ : Nat
  token : Nat
  amount : Nat
  chainId : Nat
  gasConditions : GasConditions
  timeWindow : TimeWindow
  executed : Bool
  canceled : Bool
  purpose : String
  nonce : Nat
deriving DecidableEq

/-- The all-default record a Solidity mapping returns for a key that was
never assigned. -/
def defaultJob : TransferJob :=
  { from_ := 0, to_ := 0, token := 0, amount := 0, chainId := 0,
    gasConditions := { maxBaseFeeGwei := 0, maxPriorityFeeGwei := 0,
                       maxTotalFeeGwei := 0, enforceConditions := false },
    timeWindow := { startTime := 0, endTime := 0, executeOnExpiry := false },
    executed := false, canceled := false, purpose := "", nonce := 0 }

/-- Storage of the ZegasSmartTransfer contract. -/
structure LedgerState where
  jobs : Nat → TransferJob
  userNonces : Nat → Nat
  jobCount : Nat
  authorizedRelayers : Nat → Bool
  platformFeeBps : Nat
  feeCollector : Nat
  owner : Nat

/-- Environment observed by one transaction: caller, block data, call
value, and the success of each external value transfer the contract
attempts (transferOk token recipient amount), of an ERC20 pull from the
caller (pullOk), and of a permit call (permitOk). -/
structure Env where
  caller : Nat
  now : Nat
  chainid : Nat
  basefee : Nat
  gasprice : Nat
  msgValue : Nat
  transferOk : Nat → Nat → Nat → Bool
  pullOk : Bool
  permitOk : Bool

/-- An outbound value transfer performed by the contract:
token (0 = native), recipient, amount. -/
structure TokenTransfer where
  token : Nat
  dest : Nat
  amount : Nat
deriving DecidableEq

/-- Overwrite one slot of the jobs mapping. -/
def setJob (s : LedgerState) (jobId : Nat) (job : TransferJob) : LedgerState :=
  { s with jobs := fun k => if k = jobId then job else s.jobs k }

/-- State after the constructor: empty mappings, given fee config and
contract owner.  (The constructor's own require checks constrain only
the deployment parameters.) -/
def initialState (deployer initialFeeBps initialFeeCollector : Nat) : LedgerState :=
  { jobs := fun _ => defaultJob, userNonces := fun _ => 0, jobCount := 0,
    authorizedRelayers := fun _ => false, platformFeeBps := initialFeeBps,
    feeCollector := initialFeeCollector, owner := deployer }

/-- The job record scheduleTransfer stores for the fresh id. -/
def newJobRecord (s : LedgerState) (env : Env) (to_ token amount : Nat)
    (gasConditions : GasConditions) (timeWindow : TimeWindow) (purpose : String) :
    TransferJob :=
  { from_ := env.caller, to_ := to_, token := token, amount := amount,
    chainId := env.chainid, gasConditions := gasConditions,
    timeWindow := timeWindow, executed := false, canceled := false,
    purpose := purpose, nonce := s.userNonces env.caller }

/-- Ledger state after a successful schedule: the fresh slot
jobCount + 1 is filled, jobCount is bumped, the caller's nonce is
incremented. -/
def scheduledState (s : LedgerState) (env : Env) (to_ token amount : Nat)
    (gasConditions : GasConditions) (timeWindow : TimeWindow) (purpose : String) :
    LedgerState :=
  { setJob s (s.jobCount + 1)
      (newJobRecord s env to_ token amount gasConditions timeWindow purpose) with
    jobCount := s.jobCount + 1,
    userNonces := fun a =>
      if a = env.caller then s.userNonces env.caller + 1 else s.userNonces a }

/-- Embedding of scheduleTransfer.  On success it returns the new state,
the fresh job id, and the list of ERC20 pulls from the caller (empty for
a native job, whose funding is the call value itself). -/
def scheduleTransfer (s : LedgerState) (env : Env) (to_ token amount : Nat)
    (gasConditions : GasConditions) (timeWindow : TimeWindow) (purpose : String) :
    Except String (LedgerState × Nat × List TokenTransfer) :=
  if to_ = 0 then .error "Invalid recipient"
  else if amount = 0 then .error "Amount must be > 0"
  else if timeWindow.startTime < env.now then .error "Start time in past"
  else if ¬ timeWindow.startTime < timeWindow.endTime then .error "Invalid time window"
  else if token = 0 then
    if ¬ env.msgValue = amount then .error "ETH amount mismatch"
    else .ok (scheduledState s env to_ token amount gasConditions timeWindow purpose,
              s.jobCount + 1, [])
  else
    if ¬ env.msgValue = 0 then .error "Do not send ETH for token transfer"
    else if env.pullOk = false then .error "SafeERC20 transferFrom failed"
    else .ok (scheduledState s env to_ token amount gasConditions timeWindow purpose,
              s.jobCount + 1, [{ token := token, dest := env.caller, amount := amount }])

/-- Embedding of scheduleTransferWithPermit. -/
def scheduleTransferWithPermit (s : LedgerState) (env : Env) (to_ token amount : Nat)
    (gasConditions : GasConditions) (timeWindow : TimeWindow) (purpose : String) :
    Except String (LedgerState × Nat × List TokenTransfer) :=
  if token = 0 then .error "Permit not available for ETH"
  else if to_ = 0 then .error "Invalid recipient"
  else if amount = 0 then .error "Amount must be > 0"
  else if timeWindow.startTime < env.now then .error "Start time in past"
  else if ¬ timeWindow.startTime < timeWindow.endTime then .error "Invalid time window"
  else if env.permitOk = false then .error "ERC20Permit invalid signature"
  else if env.pullOk = false then .error "SafeERC20 transferFrom failed"
  else
    .ok (scheduledState s env to_ token amount gasConditions timeWindow purpose,
         s.jobCount + 1, [{ token := token, dest := env.caller, amount := amount }])

/-- Embedding of _validateExecutionConditions; some msg is the revert
reason, none means the checks pass.  The priority-fee reading computes
tx.gasprice - block.basefee, whose checked subtraction underflows when
gasprice < basefee (never the case in a real EVM block). -/
def _validateExecutionConditions (s : LedgerState) (env : Env) (job : TransferJob) :
    Option String :=
  if job.timeWindow.endTime < env.now then
    if job.timeWindow.executeOnExpiry then none else some "Window expired"
  else if job.gasConditions.enforceConditions = false then none
  else if s.authorizedRelayers env.caller = false then
    some "Only authorized relayers can execute"
  else if ¬ env.basefee / gwei ≤ job.gasConditions.maxBaseFeeGwei then
    some "Base fee too high"
  else if 0 < job.gasConditions.maxPriorityFeeGwei ∧ env.gasprice < env.basefee then
    some "arithmetic underflow"
  else if 0 < job.gasConditions.maxPriorityFeeGwei ∧
      ¬ (env.gasprice - env.basefee) / gwei ≤ job.gasConditions.maxPriorityFeeGwei then
    some "Priority fee too high"
  else if 0 < job.gasConditions.maxTotalFeeGwei ∧
      ¬ env.gasprice / gwei ≤ job.gasConditions.maxTotalFeeGwei then
    some "Total fee too high"
  else none

/-- The platform-fee leg of an execution payout: skipped (empty) when
the fee rounds to zero, mirroring the platformFee > 0 guard. -/
def feePayout (token collector fee : Nat) : List TokenTransfer :=
  if fee = 0 then [] else [{ token := token, dest := collector, amount := fee }]

/-- Embedding of _executeTransferWithFees: compute the platform fee,
send it to the collector unless it is zero, send the remainder to the
recipient; either failed send reverts the call.  The product
amount * feeBps is checked 256-bit arithmetic. -/
def _executeTransferWithFees (s : LedgerState) (env : Env) (job : TransferJob) :
    Except String (List TokenTransfer) :=
  if UINT_MAX ≤ job.amount * s.platformFeeBps then .error "arithmetic overflow"
  else
    let platformFee := job.amount * s.platformFeeBps / 10000
    if job.amount < platformFee then .error "arithmetic underflow"
    else
      let transferAmount := job.amount - platformFee
      if job.token = 0 then
        if 0 < platformFee ∧ env.transferOk 0 s.feeCollector platformFee = false then
          .error "Fee transfer failed"
        else if env.transferOk 0 job.to_ transferAmount = false then
          .error "ETH transfer failed"
        else
          .ok (feePayout 0 s.feeCollector platformFee ++
               [{ token := 0, dest := job.to_, amount := transferAmount }])
      else
        if 0 < platformFee ∧ env.transferOk job.token s.feeCollector platformFee = false then
          .error "SafeERC20 transfer failed"
        else if env.transferOk job.token job.to_ transferAmount = false then
          .error "SafeERC20 transfer failed"
        else
          .ok (feePayout job.token s.feeCollector platformFee ++
               [{ token := job.token, dest := job.to_, amount := transferAmount }])

/-- Embedding of executeTransfer.  The guard chain runs in source order;
on success the job is marked executed and the transfers of
_executeTransferWithFees are performed.  The JobExecuted event computes
tx.gasprice - block.basefee, modelled as a final checked subtraction. -/
def executeTransfer (s : LedgerState) (env : Env) (jobId : Nat) :
    Except String (LedgerState × List TokenTransfer) :=
  let job := s.jobs jobId
  if job.executed || job.canceled then .error "Job not active"
  else if ¬ env.chainid = job.chainId then .error "Wrong network"
  else if env.now < job.timeWindow.startTime then .error "Too early"
  else
    match _validateExecutionConditions s env job with
    | some err => .error err
    | none =>
      match _executeTransferWithFees s env job with
      | .error e => .error e
      | .ok ts =>
        if env.gasprice < env.basefee then .error "arithmetic underflow"
        else .ok (setJob s jobId { job with executed := true }, ts)

/-- Embedding of cancelTransfer: owner-only, active-only, only strictly
before the window end; refunds the full amount to the owner. -/
def cancelTransfer (s : LedgerState) (env : Env) (jobId : Nat) :
    Except String (LedgerState × List TokenTransfer) :=
  let job := s.jobs jobId
  if ¬ env.caller = job.from_ then .error "Not job owner"
  else if job.executed || job.canceled then .error "Job not active"
  else if ¬ env.now < job.timeWindow.endTime then .error "Window expired"
  else
    let s' := setJob s jobId { job with canceled := true }
    if job.token = 0 then
      if env.transferOk 0 job.from_ job.amount = false then .error "ETH refund failed"
      else .ok (s', [{ token := 0, dest := job.from_, amount := job.amount }])
    else
      if env.transferOk job.token job.from_ job.amount = false then
        .error "SafeERC20 transfer failed"
      else .ok (s', [{ token := job.token, dest := job.from_, amount := job.amount }])

/-- Embedding of setRelayerAuthorization (onlyOwner). -/
def setRelayerAuthorization (s : LedgerState) (env : Env) (relayer : Nat) (status : Bool) :
    Except String LedgerState :=
  if ¬ env.caller = s.owner then .error "OwnableUnauthorizedAccount"
  else .ok { s with authorizedRelayers := fun a =>
               if a = relayer then status else s.authorizedRelayers a }

/-- Embedding of updateFee (onlyOwner). -/
def updateFee (s : LedgerState) (env : Env) (newFeeBps newCollector : Nat) :
    Except String LedgerState :=
  if ¬ env.caller = s.owner then .error "OwnableUnauthorizedAccount"
  else if 1000 < newFeeBps then .error "Fee too high (max 10 percent)"
  else if newCollector = 0 then .error "Invalid collector"
  else .ok { s with platformFeeBps := newFeeBps, feeCollector := newCollector }

/-- Embedding of getJob: a plain mapping read, total by construction. -/
def getJob (s : LedgerState) (jobId : Nat) : TransferJob :=
  s.jobs jobId

/-- Embedding of canExecuteJob: the read-only pre-check. -/
def canExecuteJob (s : LedgerState) (env : Env) (jobId : Nat) : Bool × String :=
  let job := s.jobs jobId
  if job.executed then (false, "Already executed")
  else if job.canceled then (false, "Canceled")
  else if env.now < job.timeWindow.startTime then (false, "Too early")
  else if job.timeWindow.endTime < env.now ∧ job.timeWindow.executeOnExpiry = false then
    (false, "Window expired")
  else if job.gasConditions.enforceConditions = true ∧ env.now ≤ job.timeWindow.endTime ∧
      ¬ env.basefee / gwei ≤ job.gasConditions.maxBaseFeeGwei then
    (false, "Base fee too high")
  else (true, "")

/-- One ledger transaction, with the environment it observes. -/
inductive Op where
  | schedule (env : Env) (to_ token amount : Nat)
      (gasConditions : GasConditions) (timeWindow : TimeWindow) (purpose : String)
  | schedulePermit (env : Env) (to_ token amount : Nat)
      (gasConditions : GasConditions) (timeWindow : TimeWindow) (purpose : String)
  | execute (env : Env) (jobId : Nat)
  | cancel (env : Env) (jobId : Nat)
  | setRelayer (env : Env) (relayer : Nat) (status : Bool)
  | setFee (env : Env) (newFeeBps newCollector : Nat)

/-- Environment an operation observes. -/
def Op.env : Op → Env
  | .schedule e _ _ _ _ _ _ => e
  | .schedulePermit e _ _ _ _ _ _ => e
  | .execute e _ => e
  | .cancel e _ => e
  | .setRelayer e _ _ => e
  | .setFee e _ _ => e

/-- Basic EVM consistency of an observed environment: chain ids are
nonzero (EIP-155 networks use positive ids). -/
def EnvOk (env : Env) : Prop := 0 < env.chainid

/-- Apply one transaction to the ledger; a revert leaves the state
unchanged. -/
def applyOp (s : LedgerState) : Op → LedgerState
  | .schedule env to_ token amount gc tw purpose =>
    match scheduleTransfer s env to_ token amount gc tw purpose with
    | .ok (s', _, _) => s'
    | .error _ => s
  | .schedulePermit env to_ token amount gc tw purpose =>
    match scheduleTransferWithPermit s env to_ token amount gc tw purpose with
    | .ok (s', _, _) => s'
    | .error _ => s
  | .execute env jobId =>
    match executeTransfer s env jobId with
    | .ok (s', _) => s'
    | .error _ => s
  | .cancel env jobId =>
    match cancelTransfer s env jobId with
    | .ok (s', _) => s'
    | .error _ => s
  | .setRelayer env relayer status =>
    match setRelayerAuthorization s env relayer status with
    | .ok s' => s'
    | .error _ => s
  | .setFee env bps collector =>
    match updateFee s env bps collector with
    | .ok s' => s'
    | .error _ => s

/-- Apply a sequence of transactions in order. -/
def applyOps (s : LedgerState) : List Op → LedgerState
  | [] => s
  | op :: ops => applyOps (applyOp s op) ops

/-- Well-formedness of ledger storage: every job slot the contract has
never assigned (slot 0 and every slot above jobCount) still holds the
all-default record. -/
def WF (s : LedgerState) : Prop :=
  ∀ k, (k = 0 ∨ s.jobCount < k) → s.jobs k = defaultJob

/-- Disposition of a WatchEntry after one evaluation of the watcher:
keep the entry open for the next poll, or close it (stopMonitoring). -/
inductive WatchAction where
  | keep
  | close
deriving DecidableEq

/-- Embedding of RelayerService.executeJob, as a function of the
outcomes of its awaited calls: the canExecuteJob view call (preCheckOk =
the call itself succeeded, preCheck = the boolean it returned), the
transaction submission, and the confirmation wait.  Any thrown error is
caught and leaves the entry open; a false pre-check stops monitoring;
a confirmed execution stops monitoring. -/
def executeJob (preCheckOk preCheck submitOk confirmOk : Bool) : WatchAction :=
  if preCheckOk = false then .keep
  else if preCheck = false then .close
  else if submitOk = false then .keep
  else if confirmOk = false then .keep
  else .close

/-- Embedding of one run of RelayerService.monitorJob's checkJob body:
fetchOk is the getJob read succeeding (a thrown error is caught and
keeps the entry), oracleOk / oracleMeets are the outcome of the gas
oracle's checkGasConditions when the job enforces gas conditions. -/
def checkJob (fetchOk : Bool) (job : TransferJob) (now : Nat)
    (oracleOk oracleMeets : Bool) (preCheckOk preCheck submitOk confirmOk : Bool) :
    WatchAction :=
  if fetchOk = false then .keep
  else if job.executed || job.canceled then .close
  else if now < job.timeWindow.startTime then .keep
  else if job.timeWindow.endTime < now then
    if job.timeWindow.executeOnExpiry then executeJob preCheckOk preCheck submitOk confirmOk
    else .close
  else if job.gasConditions.enforceConditions then
    if oracleOk = false then .keep
    else if oracleMeets then executeJob preCheckOk preCheck submitOk confirmOk
    else .keep
  else executeJob preCheckOk preCheck submitOk confirmOk

/-- Fee reading of the off-chain oracle (gwei values are fractional). -/
structure GasPrices where
  baseFeeGwei : ℚ
  priorityFeeGwei : ℚ
  totalFeeGwei : ℚ
deriving DecidableEq

/-- One successful per-network comparison of the L2 gas comparator. -/
structure L2GasComparison where
  network : String
  chainId : Nat
  gasPrices : GasPrices
deriving DecidableEq

/-- The reduction step of findCheapestNetwork: keep the accumulator
unless the current candidate is strictly cheaper. -/
def cheaperOf (cheapest current : L2GasComparison) : L2GasComparison :=
  if current.gasPrices.totalFeeGwei < cheapest.gasPrices.totalFeeGwei then current
  else cheapest

/-- Embedding of L2GasComparator.findCheapestNetwork.  The input list
holds, in candidate order, the result of getNetworkGasPrices for each
candidate network (none when the fetch failed); the nulls are filtered
out and the rest reduced with cheaperOf. -/
def findCheapestNetwork (comparisons : List (Option L2GasComparison)) :
    Option L2GasComparison :=
  match comparisons.filterMap id with
  | [] => none
  | c :: rest => some (rest.foldl cheaperOf c)

/-- Embedding of GasOracleService.checkGasConditions: each ceiling is
skipped when it is zero (falsy in the source), otherwise the current
reading must not exceed it. -/
def checkGasConditions (maxBaseFeeGwei maxPriorityFeeGwei maxTotalFeeGwei : ℚ)
    (currentPrices : GasPrices) : Bool × Option String :=
  if ¬ maxBaseFeeGwei = 0 ∧ maxBaseFeeGwei < currentPrices.baseFeeGwei then
    (false, some "Base fee exceeds max")
  else if ¬ maxPriorityFeeGwei = 0 ∧ maxPriorityFeeGwei < currentPrices.priorityFeeGwei then
    (false, some "Priority fee exceeds max")
  else if ¬ maxTotalFeeGwei = 0 ∧ maxTotalFeeGwei < currentPrices.totalFeeGwei then
    (false, some "Total fee exceeds max")
  else (true, none)

/-! Concrete fixtures used by witnesses and counterexamples. -/

/-- An active ETH job on chain 1 with an enforced fee gate
(base ceiling 100 gwei, priority and total ceilings unset) and window
[0, 1000] without executeOnExpiry. -/
def job1 : TransferJob :=
  { from_ := 10, to_ := 11, token := 0, amount := 100, chainId := 1,
    gasConditions := { maxBaseFeeGwei := 100, maxPriorityFeeGwei := 0,
                       maxTotalFeeGwei := 0, enforceConditions := true },
    timeWindow := { startTime := 0, endTime := 1000, executeOnExpiry := false },
    executed := false, canceled := false, purpose := "", nonce := 0 }

/-- A ledger holding job1 in slot 1, with no authorized relayers,
a 5 percent platform fee and fee collector 7. -/
def ledger1 : LedgerState :=
  { jobs := fun k => if k = 1 then job1 else defaultJob,
    userNonces := fun _ => 0, jobCount := 1,
    authorizedRelayers := fun _ => false,
    platformFeeBps := 500, feeCollector := 7, owner := 5 }

/-- A block environment: unauthorized caller 42, time 10 (inside the
window), chain 1, base fee 50 gwei, gas price 60 gwei, all external
transfers succeeding. -/
def env1 : Env :=
  { caller := 42, now := 10, chainid := 1, basefee := 50 * gwei,
    gasprice := 60 * gwei, msgValue := 0,
    transferOk := fun _ _ _ => true, pullOk := true, permitOk := true }

/-- Like ledger1 but relayer 42 is authorized. -/
def ledger1auth : LedgerState :=
  { ledger1 with authorizedRelayers := fun a => a == 42 }

/-- job1 with no gas gating (enforceConditions = false) and window
[0, 100]. -/
def job2 : TransferJob :=
  { job1 with
    gasConditions := { maxBaseFeeGwei := 0, maxPriorityFeeGwei := 0,
                       maxTotalFeeGwei := 0, enforceConditions := false },
    timeWindow := { startTime := 0, endTime := 100, executeOnExpiry := false } }

/-- A ledger holding the ungated job2 in slot 1. -/
def ledger2 : LedgerState :=
  { ledger1 with jobs := fun k => if k = 1 then job2 else defaultJob }

/-- A ledger whose slot-1 job is already executed. -/
def ledger3 : LedgerState :=
  { ledger1 with jobs := fun k => if k = 1 then { job1 with executed := true } else defaultJob }

/-- job1 with an enforced gate whose three ceilings are all unset. -/
def job5 : TransferJob :=
  { job1 with
    gasConditions := { maxBaseFeeGwei := 0, maxPriorityFeeGwei := 0,
                       maxTotalFeeGwei := 0, enforceConditions := true } }

/-- A ledger holding job5 in slot 1, relayer 42 authorized. -/
def ledger5 : LedgerState :=
  { ledger1auth with jobs := fun k => if k = 1 then job5 else defaultJob }

/-- Environment with caller 42 and a modest 5 gwei base fee. -/
def env5 : Env :=
  { env1 with basefee := 5 * gwei, gasprice := 6 * gwei }

/-- Environment whose caller is job1's owner, at time 99. -/
def env6 : Env := { env1 with caller := 10, now := 99 }

/-- Environment for a schedule call at time 0 carrying 100 wei. -/
def envSched : Env := { env1 with now := 0, msgValue := 100 }

/-- Ungated gas conditions. -/
def gcW : GasConditions :=
  { maxBaseFeeGwei := 0, maxPriorityFeeGwei := 0, maxTotalFeeGwei := 0,
    enforceConditions := false }

/-- Window [0, 100] without executeOnExpiry. -/
def twW : TimeWindow := { startTime := 0, endTime := 100, executeOnExpiry := false }

/-- Comparison fixtures for the router. -/
def compA : L2GasComparison :=
  { network := "Arbitrum", chainId := 42161,
    gasPrices := { baseFeeGwei := 4, priorityFeeGwei := 1, totalFeeGwei := 5 } }

def compB : L2GasComparison :=
  { network := "Optimism", chainId := 10,
    gasPrices := { baseFeeGwei := 2, priorityFeeGwei := 1, totalFeeGwei := 3 } }

def compC : L2GasComparison :=
  { network := "Base", chainId := 8453,
    gasPrices := { baseFeeGwei := 1, priorityFeeGwei := 2, totalFeeGwei := 3 } }

/-! Projection lemmas and inversion lemmas about the ledger's
operations. -/

lemma setJob_jobs (s : LedgerState) (jobId : Nat) (job : TransferJob) (k : Nat) :
    (setJob s jobId job).jobs k = if k = jobId then job else s.jobs k := rfl

lemma setJob_jobCount (s : LedgerState) (jobId : Nat) (job : TransferJob) :
    (setJob s jobId job).jobCount = s.jobCount := rfl

lemma scheduledState_jobCount (s : LedgerState) (env : Env) (to_ token amount : Nat)
    (gc : GasConditions) (tw : TimeWindow) (p : String) :
    (scheduledState s env to_ token amount gc tw p).jobCount = s.jobCount + 1 := rfl

lemma scheduledState_jobs (s : LedgerState) (env : Env) (to_ token amount : Nat)
    (gc : GasConditions) (tw : TimeWindow) (p : String) (k : Nat) :
    (scheduledState s env to_ token amount gc tw p).jobs k =
      if k = s.jobCount + 1 then newJobRecord s env to_ token amount gc tw p
      else s.jobs k := rfl

lemma scheduledState_userNonces (s : LedgerState) (env : Env) (to_ token amount : Nat)
    (gc : GasConditions) (tw : TimeWindow) (p : String) (a : Nat) :
    (scheduledState s env to_ token amount gc tw p).userNonces a =
      if a = env.caller then s.userNonces env.caller + 1 else s.userNonces a := rfl

lemma scheduleTransfer_ok_inv {s : LedgerState} {env : Env} {to_ token amount : Nat}
    {gc : GasConditions} {tw : TimeWindow} {p : String}
    {s' : LedgerState} {jobId : Nat} {ts : List TokenTransfer}
    (h : scheduleTransfer s env to_ token amount gc tw p = .ok (s', jobId, ts)) :
    s' = scheduledState s env to_ token amount gc tw p ∧ jobId = s.jobCount + 1 ∧
    ¬ to_ = 0 ∧ ¬ amount = 0 ∧ env.now ≤ tw.startTime ∧ tw.startTime < tw.endTime ∧
    (token = 0 → env.msgValue = amount ∧ ts = []) ∧
    (¬ token = 0 → env.msgValue = 0 ∧ env.pullOk = true ∧
       ts = [{ token := token, dest := env.caller, amount := amount }]) := by
  unfold scheduleTransfer at h
  split_ifs at h with h1 h2 h3 h4 h5 h6 h7 h8
  · injection h with h
    injection h with hA h
    injection h with hB hC
    exact ⟨hA.symm, hB.symm, h1, h2, Nat.not_lt.mp h3, h4,
           fun _ => ⟨h6, hC.symm⟩, fun hT => absurd h5 hT⟩
  · injection h with h
    injection h with hA h
    injection h with hB hC
    refine ⟨hA.symm, hB.symm, h1, h2, Nat.not_lt.mp h3, h4,
            fun hT => absurd hT h5, fun _ => ⟨h7, ?_, hC.symm⟩⟩
    rcases Bool.eq_false_or_eq_true env.pullOk with hb | hb
    · exact hb
    · exact absurd hb h8

lemma scheduleTransferWithPermit_ok_inv {s : LedgerState} {env : Env}
    {to_ token amount : Nat} {gc : GasConditions} {tw : TimeWindow} {p : String}
    {s' : LedgerState} {jobId : Nat} {ts : List TokenTransfer}
    (h : scheduleTransferWithPermit s env to_ token amount gc tw p = .ok (s', jobId, ts)) :
    s' = scheduledState s env to_ token amount gc tw p ∧ jobId = s.jobCount + 1 := by
  unfold scheduleTransferWithPermit at h
  split_ifs at h
  injection h with h
  injection h with hA h
  injection h with hB hC
  exact ⟨hA.symm, hB.symm⟩

lemma setRelayerAuthorization_ok_inv {s : LedgerState} {env : Env} {relayer : Nat}
    {status : Bool} {s' : LedgerState}
    (h : setRelayerAuthorization s env relayer status = .ok s') :
    (∀ k, s'.jobs k = s.jobs k) ∧ s'.jobCount = s.jobCount := by
  unfold setRelayerAuthorization at h
  split_ifs at h
  injection h with h
  exact ⟨fun k => by rw [← h], by rw [← h]⟩

lemma updateFee_ok_inv {s : LedgerState} {env : Env} {bps collector : Nat}
    {s' : LedgerState} (h : updateFee s env bps collector = .ok s') :
    (∀ k, s'.jobs k = s.jobs k) ∧ s'.jobCount = s.jobCount := by
  unfold updateFee at h
  split_ifs at h
  injection h with h
  exact ⟨fun k => by rw [← h], by rw [← h]⟩

lemma _executeTransferWithFees_ok_inv {s : LedgerState} {env : Env} {job : TransferJob}
    {ts : List TokenTransfer} (h : _executeTransferWithFees s env job = .ok ts) :
    job.amount * s.platformFeeBps < UINT_MAX ∧
    job.amount * s.platformFeeBps / 10000 ≤ job.amount ∧
    env.transferOk job.token job.to_ (job.amount - job.amount * s.platformFeeBps / 10000) = true ∧
    (0 < job.amount * s.platformFeeBps / 10000 →
       env.transferOk job.token s.feeCollector (job.amount * s.platformFeeBps / 10000) = true) ∧
    ts = feePayout job.token s.feeCollector (job.amount * s.platformFeeBps / 10000) ++
         [{ token := job.token, dest := job.to_,
            amount := job.amount - job.amount * s.platformFeeBps / 10000 }] := by
  simp only [_executeTransferWithFees] at h
  split_ifs at h with h1 h2 h3 h4 h5 h6 h7
  · injection h with h
    rw [h3]
    refine ⟨Nat.not_le.mp h1, Nat.not_lt.mp h2, ?_, ?_, h.symm⟩
    · rcases Bool.eq_false_or_eq_true (env.transferOk 0 job.to_
        (job.amount - job.amount * s.platformFeeBps / 10000)) with hb | hb
      · exact hb
      · exact absurd hb h5
    · intro hf
      rcases Bool.eq_false_or_eq_true (env.transferOk 0 s.feeCollector
        (job.amount * s.platformFeeBps / 10000)) with hb | hb
      · exact hb
      · exact absurd ⟨hf, hb⟩ h4
  · injection h with h
    refine ⟨Nat.not_le.mp h1, Nat.not_lt.mp h2, ?_, ?_, h.symm⟩
    · rcases Bool.eq_false_or_eq_true (env.transferOk job.token job.to_
        (job.amount - job.amount * s.platformFeeBps / 10000)) with hb | hb
      · exact hb
      · exact absurd hb h7
    · intro hf
      rcases Bool.eq_false_or_eq_true (env.transferOk job.token s.feeCollector
        (job.amount * s.platformFeeBps / 10000)) with hb | hb
      · exact hb
      · exact absurd ⟨hf, hb⟩ h6

lemma executeTransfer_ok_inv {s : LedgerState} {env : Env} {jobId : Nat}
    {s' : LedgerState} {ts : List TokenTransfer}
    (h : executeTransfer s env jobId = .ok (s', ts)) :
    (s.jobs jobId).executed = false ∧ (s.jobs jobId).canceled = false ∧
    env.chainid = (s.jobs jobId).chainId ∧
    (s.jobs jobId).timeWindow.startTime ≤ env.now ∧
    _validateExecutionConditions s env (s.jobs jobId) = none ∧
    _executeTransferWithFees s env (s.jobs jobId) = .ok ts ∧
    env.basefee ≤ env.gasprice ∧
    s' = setJob s jobId { s.jobs jobId with executed := true } := by
  simp only [executeTransfer] at h
  split_ifs at h with h1 h2 h3 h4
  · exfalso
    cases hv : _validateExecutionConditions s env (s.jobs jobId) with
    | some err =>
      rw [hv] at h
      exact Except.noConfusion h
    | none =>
      rw [hv] at h
      cases hf : _executeTransferWithFees s env (s.jobs jobId) with
      | error e =>
        rw [hf] at h
        exact Except.noConfusion h
      | ok ts' =>
        rw [hf] at h
        exact Except.noConfusion h
  · have h1' : (s.jobs jobId).executed = false ∧ (s.jobs jobId).canceled = false := by
      constructor
      · rcases Bool.eq_false_or_eq_true (s.jobs jobId).executed with hb | hb
        · exact absurd (by rw [hb, Bool.true_or]) h1
        · exact hb
      · rcases Bool.eq_false_or_eq_true (s.jobs jobId).canceled with hb | hb
        · exact absurd (by rw [hb, Bool.or_true]) h1
        · exact hb
    cases hv : _validateExecutionConditions s env (s.jobs jobId) with
    | some err =>
      rw [hv] at h
      exact Except.noConfusion h
    | none =>
      rw [hv] at h
      cases hf : _executeTransferWithFees s env (s.jobs jobId) with
      | error e =>
        rw [hf] at h
        exact Except.noConfusion h
      | ok ts' =>
        rw [hf] at h
        dsimp only at h
        injection h with h
        injection h with hA hB
        exact ⟨h1'.1, h1'.2, h2, Nat.not_lt.mp h3, rfl, by rw [hB], Nat.not_lt.mp h4, hA.symm⟩

lemma cancelTransfer_ok_inv {s : LedgerState} {env : Env} {jobId : Nat}
    {s' : LedgerState} {ts : List TokenTransfer}
    (h : cancelTransfer s env jobId = .ok (s', ts)) :
    env.caller = (s.jobs jobId).from_ ∧
    (s.jobs jobId).executed = false ∧ (s.jobs jobId).canceled = false ∧
    env.now < (s.jobs jobId).timeWindow.endTime ∧
    s' = setJob s jobId { s.jobs jobId with canceled := true } ∧
    ts = [{ token := (s.jobs jobId).token, dest := (s.jobs jobId).from_,
            amount := (s.jobs jobId).amount }] := by
  simp only [cancelTransfer] at h
  split_ifs at h with h1 h2 h3 h4 h5 h6
  · have h2' : (s.jobs jobId).executed = false ∧ (s.jobs jobId).canceled = false := by
      constructor
      · rcases Bool.eq_false_or_eq_true (s.jobs jobId).executed with hb | hb
        · exact absurd (by rw [hb, Bool.true_or]) h2
        · exact hb
      · rcases Bool.eq_false_or_eq_true (s.jobs jobId).canceled with hb | hb
        · exact absurd (by rw [hb, Bool.or_true]) h2
        · exact hb
    injection h with h
    injection h with hA hB
    rw [h4]
    exact ⟨h1, h2'.1, h2'.2, h3, hA.symm, hB.symm⟩
  · have h2' : (s.jobs jobId).executed = false ∧ (s.jobs jobId).canceled = false := by
      constructor
      · rcases Bool.eq_false_or_eq_true (s.jobs jobId).executed with hb | hb
        · exact absurd (by rw [hb, Bool.true_or]) h2
        · exact hb
      · rcases Bool.eq_false_or_eq_true (s.jobs jobId).canceled with hb | hb
        · exact absurd (by rw [hb, Bool.or_true]) h2
        · exact hb
    injection h with h
    injection h with hA hB
    exact ⟨h1, h2'.1, h2'.2, h3, hA.symm, hB.symm⟩

/-! Preservation of storage well-formedness and of terminal job records
across arbitrary transaction sequences. -/

lemma applyOp_WF {s : LedgerState} {op : Op} (hWF : WF s) (henv : EnvOk op.env) :
    WF (applyOp s op) := by
  cases op with
  | schedule env to_ token amount gc tw p =>
    simp only [applyOp]
    cases h : scheduleTransfer s env to_ token amount gc tw p with
    | error e => exact hWF
    | ok r =>
      obtain ⟨s', jobId, ts⟩ := r
      obtain ⟨hs', -, -, -, -, -, -, -⟩ := scheduleTransfer_ok_inv h
      subst hs'
      intro k hk
      rw [scheduledState_jobCount] at hk
      rw [scheduledState_jobs]
      rcases hk with rfl | hk
      · rw [if_neg (by omega)]
        exact hWF 0 (Or.inl rfl)
      · rw [if_neg (by omega)]
        exact hWF k (Or.inr (by omega))
  | schedulePermit env to_ token amount gc tw p =>
    simp only [applyOp]
    cases h : scheduleTransferWithPermit s env to_ token amount gc tw p with
    | error e => exact hWF
    | ok r =>
      obtain ⟨s', jobId, ts⟩ := r
      obtain ⟨hs', -⟩ := scheduleTransferWithPermit_ok_inv h
      subst hs'
      intro k hk
      rw [scheduledState_jobCount] at hk
      rw [scheduledState_jobs]
      rcases hk with rfl | hk
      · rw [if_neg (by omega)]
        exact hWF 0 (Or.inl rfl)
      · rw [if_neg (by omega)]
        exact hWF k (Or.inr (by omega))
  | execute env jobId =>
    simp only [applyOp]
    cases h : executeTransfer s env jobId with
    | error e => exact hWF
    | ok r =>
      obtain ⟨s', ts⟩ := r
      obtain ⟨-, -, hchain, -, -, -, -, hs'⟩ := executeTransfer_ok_inv h
      subst hs'
      have hc : 0 < env.chainid := henv
      have hass : ¬ (jobId = 0 ∨ s.jobCount < jobId) := by
        intro hk
        rw [hWF jobId hk] at hchain
        have h0 : env.chainid = 0 := hchain
        omega
      intro k hk
      rw [setJob_jobCount] at hk
      rw [setJob_jobs, if_neg (by intro hkj; exact hass (hkj ▸ hk))]
      exact hWF k hk
  | cancel env jobId =>
    simp only [applyOp]
    cases h : cancelTransfer s env jobId with
    | error e => exact hWF
    | ok r =>
      obtain ⟨s', ts⟩ := r
      obtain ⟨-, -, -, hend, hs', -⟩ := cancelTransfer_ok_inv h
      subst hs'
      have hass : ¬ (jobId = 0 ∨ s.jobCount < jobId) := by
        intro hk
        rw [hWF jobId hk] at hend
        exact Nat.not_lt_zero _ hend
      intro k hk
      rw [setJob_jobCount] at hk
      rw [setJob_jobs, if_neg (by intro hkj; exact hass (hkj ▸ hk))]
      exact hWF k hk
  | setRelayer env relayer status =>
    simp only [applyOp]
    cases h : setRelayerAuthorization s env relayer status with
    | error e => exact hWF
    | ok s' =>
      obtain ⟨hjobs, hcount⟩ := setRelayerAuthorization_ok_inv h
      intro k hk
      rw [hjobs k]
      rw [hcount] at hk
      exact hWF k hk
  | setFee env bps collector =>
    simp only [applyOp]
    cases h : updateFee s env bps collector with
    | error e => exact hWF
    | ok s' =>
      obtain ⟨hjobs, hcount⟩ := updateFee_ok_inv h
      intro k hk
      rw [hjobs k]
      rw [hcount] at hk
      exact hWF k hk

lemma applyOps_WF {s : LedgerState} {ops : List Op} (hWF : WF s)
    (hops : ∀ op ∈ ops, EnvOk op.env) : WF (applyOps s ops) := by
  induction ops generalizing s with
  | nil => exact hWF
  | cons op rest ih =>
    exact ih (applyOp_WF hWF (hops op (List.mem_cons_self op rest)))
      (fun o ho => hops o (List.mem_cons_of_mem op ho))

lemma applyOp_terminal_frozen {s : LedgerState} {op : Op} {j : Nat} (hWF : WF s)
    (hterm : (s.jobs j).executed = true ∨ (s.jobs j).canceled = true) :
    (applyOp s op).jobs j = s.jobs j := by
  cases op with
  | schedule env to_ token amount gc tw p =>
    simp only [applyOp]
    cases h : scheduleTransfer s env to_ token amount gc tw p with
    | error e => rfl
    | ok r =>
      obtain ⟨s', jobId, ts⟩ := r
      obtain ⟨hs', -, -, -, -, -, -, -⟩ := scheduleTransfer_ok_inv h
      subst hs'
      rw [scheduledState_jobs, if_neg ?hfresh]
      case hfresh =>
        intro hj
        have hd := hWF j (Or.inr (by omega))
        rw [hd] at hterm
        rcases hterm with ht | ht <;> exact Bool.noConfusion ht
  | schedulePermit env to_ token amount gc tw p =>
    simp only [applyOp]
    cases h : scheduleTransferWithPermit s env to_ token amount gc tw p with
    | error e => rfl
    | ok r =>
      obtain ⟨s', jobId, ts⟩ := r
      obtain ⟨hs', -⟩ := scheduleTransferWithPermit_ok_inv h
      subst hs'
      rw [scheduledState_jobs, if_neg ?hfreshp]
      case hfreshp =>
        intro hj
        have hd := hWF j (Or.inr (by omega))
        rw [hd] at hterm
        rcases hterm with ht | ht <;> exact Bool.noConfusion ht
  | execute env jobId =>
    simp only [applyOp]
    cases h : executeTransfer s env jobId with
    | error e => rfl
    | ok r =>
      obtain ⟨s', ts⟩ := r
      obtain ⟨hex, hcanc, -, -, -, -, -, hs'⟩ := executeTransfer_ok_inv h
      subst hs'
      rw [setJob_jobs, if_neg ?hne]
      case hne =>
        intro hj
        rw [hj] at hterm
        rcases hterm with ht | ht
        · rw [hex] at ht
          exact Bool.noConfusion ht
        · rw [hcanc] at ht
          exact Bool.noConfusion ht
  | cancel env jobId =>
    simp only [applyOp]
    cases h : cancelTransfer s env jobId with
    | error e => rfl
    | ok r =>
      obtain ⟨s', ts⟩ := r
      obtain ⟨-, hex, hcanc, -, hs', -⟩ := cancelTransfer_ok_inv h
      subst hs'
      rw [setJob_jobs, if_neg ?hnec]
      case hnec =>
        intro hj
        rw [hj] at hterm
        rcases hterm with ht | ht
        · rw [hex] at ht
          exact Bool.noConfusion ht
        · rw [hcanc] at ht
          exact Bool.noConfusion ht
  | setRelayer env relayer status =>
    simp only [applyOp]
    cases h : setRelayerAuthorization s env relayer status with
    | error e => rfl
    | ok s' => exact (setRelayerAuthorization_ok_inv h).1 j
  | setFee env bps collector =>
    simp only [applyOp]
    cases h : updateFee s env bps collector with
    | error e => rfl
    | ok s' => exact (updateFee_ok_inv h).1 j

lemma applyOps_terminal_frozen {s : LedgerState} {ops : List Op} {j : Nat} (hWF : WF s)
    (hops : ∀ op ∈ ops, EnvOk op.env)
    (hterm : (s.jobs j).executed = true ∨ (s.jobs j).canceled = true) :
    (applyOps s ops).jobs j = s.jobs j := by
  induction ops generalizing s with
  | nil => rfl
  | cons op rest ih =>
    have h1 : (applyOp s op).jobs j = s.jobs j := applyOp_terminal_frozen hWF hterm
    have h2 := ih (applyOp_WF hWF (hops op (List.mem_cons_self op rest)))
      (fun o ho => hops o (List.mem_cons_of_mem op ho))
      (by rw [h1]; exact hterm)
    show (applyOps (applyOp s op) rest).jobs j = s.jobs j
    rw [h2, h1]

/-! The reduce of findCheapestNetwork picks the first minimum. -/

lemma head_le_of_split {x r : L2GasComparison} {xs l₁ l₂ : List L2GasComparison}
    (hsplit : x :: xs = l₁ ++ r :: l₂)
    (h₁ : ∀ d ∈ l₁, r.gasPrices.totalFeeGwei < d.gasPrices.totalFeeGwei) :
    r.gasPrices.totalFeeGwei ≤ x.gasPrices.totalFeeGwei := by
  cases l₁ with
  | nil =>
    injection hsplit with hx _
    exact le_of_eq (by rw [hx])
  | cons a t =>
    injection hsplit with hx _
    have := h₁ a (List.mem_cons_self a t)
    rw [hx]
    exact le_of_lt this

lemma foldl_cheaperOf_split (l : List L2GasComparison) (init : L2GasComparison) :
    ∃ l₁ l₂, init :: l = l₁ ++ (l.foldl cheaperOf init) :: l₂ ∧
      (∀ d ∈ l₁, (l.foldl cheaperOf init).gasPrices.totalFeeGwei < d.gasPrices.totalFeeGwei) ∧
      (∀ d ∈ l₂, (l.foldl cheaperOf init).gasPrices.totalFeeGwei ≤ d.gasPrices.totalFeeGwei) := by
  induction l generalizing init with
  | nil => exact ⟨[], [], rfl, by simp, by simp⟩
  | cons x xs ih =>
    simp only [List.foldl_cons]
    by_cases hx : x.gasPrices.totalFeeGwei < init.gasPrices.totalFeeGwei
    · have hcx : cheaperOf init x = x := by
        unfold cheaperOf
        rw [if_pos hx]
      rw [hcx]
      obtain ⟨l₁, l₂, hsplit, h₁, h₂⟩ := ih x
      refine ⟨init :: l₁, l₂, ?_, ?_, h₂⟩
      · rw [List.cons_append, ← hsplit]
      · intro d hd
        rcases List.mem_cons.mp hd with rfl | hd
        · exact lt_of_le_of_lt (head_le_of_split hsplit h₁) hx
        · exact h₁ d hd
    · have hcx : cheaperOf init x = init := by
        unfold cheaperOf
        rw [if_neg hx]
      rw [hcx]
      obtain ⟨l₁, l₂, hsplit, h₁, h₂⟩ := ih init
      cases l₁ with
      | nil =>
        injection hsplit with hinit hxs
        refine ⟨[], x :: xs, ?_, by simp, ?_⟩
        · rw [List.nil_append, ← hinit]
        · intro d hd
          rcases List.mem_cons.mp hd with rfl | hd
          · rw [← hinit]
            exact not_lt.mp hx
          · rw [hxs] at hd
            exact h₂ d hd
      | cons a t =>
        injection hsplit with ha hxs
        have hxs' : xs = t ++ ((xs.foldl cheaperOf init) :: l₂) := hxs
        refine ⟨init :: x :: t, l₂, ?_, ?_, h₂⟩
        · rw [List.cons_append, List.cons_append, ← hxs']
        · intro d hd
          have hra : (xs.foldl cheaperOf init).gasPrices.totalFeeGwei <
              init.gasPrices.totalFeeGwei := by
            have hh := h₁ a (List.mem_cons_self a t)
            rw [← ha] at hh
            exact hh
          rcases List.mem_cons.mp hd with rfl | hd
          · exact hra
          · rcases List.mem_cons.mp hd with rfl | hd
            · exact lt_of_lt_of_le hra (not_lt.mp hx)
            · exact h₁ d (List.mem_cons_of_mem a hd)

/-! Guard-chain helper lemmas. -/

lemma bool_eq_false_of_ne_true {b : Bool} (h : ¬ b = true) : b = false := by
  rcases Bool.eq_false_or_eq_true b with hb | hb
  · exact absurd hb h
  · exact hb

lemma platformFee_le {amount bps : Nat} (h : bps ≤ 1000) :
    amount * bps / 10000 ≤ amount := by
  have h1 : amount * bps ≤ amount * 10000 :=
    Nat.mul_le_mul (le_refl amount) (le_trans h (by norm_num))
  calc amount * bps / 10000 ≤ amount * 10000 / 10000 := Nat.div_le_div_right h1
    _ = amount := Nat.mul_div_cancel _ (by norm_num)

lemma canExecuteJob_true_inv {s : LedgerState} {env : Env} {jobId : Nat}
    (h : (canExecuteJob s env jobId).1 = true) :
    (s.jobs jobId).executed = false ∧ (s.jobs jobId).canceled = false ∧
    (s.jobs jobId).timeWindow.startTime ≤ env.now ∧
    ((s.jobs jobId).timeWindow.endTime < env.now →
       (s.jobs jobId).timeWindow.executeOnExpiry = true) ∧
    ((s.jobs jobId).gasConditions.enforceConditions = true →
       env.now ≤ (s.jobs jobId).timeWindow.endTime →
       env.basefee / gwei ≤ (s.jobs jobId).gasConditions.maxBaseFeeGwei) := by
  simp only [canExecuteJob] at h
  split_ifs at h with h1 h2 h3 h4 h5
  refine ⟨bool_eq_false_of_ne_true h1, bool_eq_false_of_ne_true h2, Nat.not_lt.mp h3, ?_, ?_⟩
  · intro hlt
    rcases Bool.eq_false_or_eq_true (s.jobs jobId).timeWindow.executeOnExpiry with hb | hb
    · exact hb
    · exact absurd ⟨hlt, hb⟩ h4
  · intro he hle
    by_contra hn
    exact h5 ⟨he, hle, hn⟩

lemma validate_expired_bypass {s : LedgerState} {env : Env} {job : TransferJob}
    (hend : job.timeWindow.endTime < env.now)
    (hexp : job.timeWindow.executeOnExpiry = true) :
    _validateExecutionConditions s env job = none := by
  unfold _validateExecutionConditions
  rw [if_pos hend, if_pos hexp]

lemma validate_unauthorized {s : LedgerState} {env : Env} {job : TransferJob}
    (hle : env.now ≤ job.timeWindow.endTime)
    (henf : job.gasConditions.enforceConditions = true)
    (hauth : s.authorizedRelayers env.caller = false) :
    _validateExecutionConditions s env job = some "Only authorized relayers can execute" := by
  unfold _validateExecutionConditions
  rw [if_neg (Nat.not_lt.mpr hle)]
  rw [if_neg (by rw [henf]; exact fun hh => Bool.noConfusion hh)]
  rw [if_pos hauth]

lemma validate_none_of {s : LedgerState} {env : Env} {job : TransferJob}
    (hexp : job.timeWindow.endTime < env.now → job.timeWindow.executeOnExpiry = true)
    (hin : env.now ≤ job.timeWindow.endTime → job.gasConditions.enforceConditions = true →
       s.authorizedRelayers env.caller = true ∧
       env.basefee / gwei ≤ job.gasConditions.maxBaseFeeGwei ∧
       (0 < job.gasConditions.maxPriorityFeeGwei →
          (env.gasprice - env.basefee) / gwei ≤ job.gasConditions.maxPriorityFeeGwei) ∧
       (0 < job.gasConditions.maxTotalFeeGwei →
          env.gasprice / gwei ≤ job.gasConditions.maxTotalFeeGwei))
    (hgas : env.basefee ≤ env.gasprice) :
    _validateExecutionConditions s env job = none := by
  unfold _validateExecutionConditions
  by_cases hw : job.timeWindow.endTime < env.now
  · rw [if_pos hw, if_pos (hexp hw)]
  · rw [if_neg hw]
    by_cases he : job.gasConditions.enforceConditions = false
    · rw [if_pos he]
    · rw [if_neg he]
      obtain ⟨hauth, hbase, hprio, htot⟩ :=
        hin (Nat.not_lt.mp hw) (by
          rcases Bool.eq_false_or_eq_true job.gasConditions.enforceConditions with hb | hb
          · exact hb
          · exact absurd hb he)
      rw [if_neg (by rw [hauth]; exact fun hh => Bool.noConfusion hh)]
      rw [if_neg (not_not_intro hbase)]
      rw [if_neg (by rintro ⟨-, hlt⟩; omega)]
      rw [if_neg (by rintro ⟨hp0, hn⟩; exact hn (hprio hp0))]
      rw [if_neg (by rintro ⟨ht0, hn⟩; exact hn (htot ht0))]

lemma executeTransfer_not_active {s : LedgerState} {env : Env} {jobId : Nat}
    (h : (s.jobs jobId).executed = true ∨ (s.jobs jobId).canceled = true) :
    executeTransfer s env jobId = .error "Job not active" := by
  have hcond : ((s.jobs jobId).executed || (s.jobs jobId).canceled) = true := by
    rcases h with ht | ht
    · rw [ht, Bool.true_or]
    · rw [ht, Bool.or_true]
  simp only [executeTransfer]
  rw [if_pos hcond]

lemma executeTransfer_wrong_network {s : LedgerState} {env : Env} {jobId : Nat}
    (hex : (s.jobs jobId).executed = false) (hcan : (s.jobs jobId).canceled = false)
    (hnet : ¬ env.chainid = (s.jobs jobId).chainId) :
    executeTransfer s env jobId = .error "Wrong network" := by
  simp only [executeTransfer]
  rw [if_neg (by rw [hex, hcan]; exact fun hh => Bool.noConfusion hh), if_pos hnet]

lemma executeTransfer_too_early {s : LedgerState} {env : Env} {jobId : Nat}
    (hex : (s.jobs jobId).executed = false) (hcan : (s.jobs jobId).canceled = false)
    (hnet : env.chainid = (s.jobs jobId).chainId)
    (hlt : env.now < (s.jobs jobId).timeWindow.startTime) :
    executeTransfer s env jobId = .error "Too early" := by
  simp only [executeTransfer]
  rw [if_neg (by rw [hex, hcan]; exact fun hh => Bool.noConfusion hh)]
  rw [if_neg (not_not_intro hnet), if_pos hlt]

lemma executeTransfer_of_validate_error {s : LedgerState} {env : Env} {jobId : Nat}
    (hex : (s.jobs jobId).executed = false) (hcan : (s.jobs jobId).canceled = false)
    (hnet : env.chainid = (s.jobs jobId).chainId)
    (hstart : (s.jobs jobId).timeWindow.startTime ≤ env.now) {msg : String}
    (hv : _validateExecutionConditions s env (s.jobs jobId) = some msg) :
    executeTransfer s env jobId = .error msg := by
  simp only [executeTransfer]
  rw [if_neg (by rw [hex, hcan]; exact fun hh => Bool.noConfusion hh)]
  rw [if_neg (not_not_intro hnet), if_neg (Nat.not_lt.mpr hstart), hv]

lemma fees_ok_of {s : LedgerState} {env : Env} {job : TransferJob}
    (hbps : s.platformFeeBps ≤ 1000)
    (hamt : job.amount * s.platformFeeBps < UINT_MAX)
    (htr : ∀ t r a, env.transferOk t r a = true) :
    _executeTransferWithFees s env job =
      .ok (feePayout job.token s.feeCollector (job.amount * s.platformFeeBps / 10000) ++
           [{ token := job.token, dest := job.to_,
              amount := job.amount - job.amount * s.platformFeeBps / 10000 }]) := by
  simp only [_executeTransferWithFees]
  rw [if_neg (Nat.not_le.mpr hamt)]
  rw [if_neg (Nat.not_lt.mpr (platformFee_le hbps))]
  by_cases ht : job.token = 0
  · rw [if_pos ht]
    rw [if_neg (by rintro ⟨-, hf⟩; rw [htr] at hf; exact Bool.noConfusion hf)]
    rw [if_neg (by intro hf; rw [htr] at hf; exact Bool.noConfusion hf)]
    rw [ht]
  · rw [if_neg ht]
    rw [if_neg (by rintro ⟨-, hf⟩; rw [htr] at hf; exact Bool.noConfusion hf)]
    rw [if_neg (by intro hf; rw [htr] at hf; exact Bool.noConfusion hf)]

lemma executeTransfer_ok_of {s : LedgerState} {env : Env} {jobId : Nat}
    {ts : List TokenTransfer}
    (hex : (s.jobs jobId).executed = false) (hcan : (s.jobs jobId).canceled = false)
    (hnet : env.chainid = (s.jobs jobId).chainId)
    (hstart : (s.jobs jobId).timeWindow.startTime ≤ env.now)
    (hv : _validateExecutionConditions s env (s.jobs jobId) = none)
    (hf : _executeTransferWithFees s env (s.jobs jobId) = .ok ts)
    (hgas : env.basefee ≤ env.gasprice) :
    executeTransfer s env jobId =
      .ok (setJob s jobId { s.jobs jobId with executed := true }, ts) := by
  have hstep : executeTransfer s env jobId =
      (if env.gasprice < env.basefee then (.error "arithmetic underflow")
       else .ok (setJob s jobId { s.jobs jobId with executed := true }, ts)) := by
    simp only [executeTransfer]
    rw [if_neg (by rw [hex, hcan]; exact fun hh => Bool.noConfusion hh)]
    rw [if_neg (not_not_intro hnet), if_neg (Nat.not_lt.mpr hstart), hv]
    dsimp only
    rw [hf]
  rw [hstep, if_neg (Nat.not_lt.mpr hgas)]

/-! Claim theorems. -/

/-- C1, counterexample: canExecuteJob and executeTransfer disagree.  In
ledger1 the slot-1 job is Active, inside its window, with an enforced
gate whose base ceiling (100 gwei) the observed 50 gwei base fee meets;
the caller 42 is not an authorized relayer.  canExecuteJob answers
(true, "") — it never consults relayer authorization, the priority or
total ceilings, or the network id — yet executeTransfer by the same
caller under the same observed fees reverts with the relayer
authorization error. -/
theorem canExecuteJob_executeTransfer_disagree :
    canExecuteJob ledger1 env1 1 = (true, "") ∧
    executeTransfer ledger1 env1 1 = .error "Only authorized relayers can execute" :=
  ⟨rfl, rfl⟩

/-- C1, amended: a true canExecuteJob answer implies executeTransfer
succeeds only together with the guards canExecuteJob does not check:
the network id must match, and when the fee gate is actually evaluated
(enforced and within the window) the caller must be an authorized
relayer and the priority / total ceilings (when set) must hold; the
external transfers must succeed and the fee product must not overflow.
Under those extra conditions the pre-check is sound: execute succeeds. -/
theorem canExecuteJob_implies_executeTransfer (s : LedgerState) (env : Env) (jobId : Nat)
    (hcan : (canExecuteJob s env jobId).1 = true)
    (hnet : env.chainid = (s.jobs jobId).chainId)
    (hgas : env.basefee ≤ env.gasprice)
    (hbps : s.platformFeeBps ≤ 1000)
    (hamt : (s.jobs jobId).amount * s.platformFeeBps < UINT_MAX)
    (htr : ∀ t r a, env.transferOk t r a = true)
    (hfee : (s.jobs jobId).gasConditions.enforceConditions = true →
            env.now ≤ (s.jobs jobId).timeWindow.endTime →
            s.authorizedRelayers env.caller = true ∧
            (0 < (s.jobs jobId).gasConditions.maxPriorityFeeGwei →
               (env.gasprice - env.basefee) / gwei ≤
                 (s.jobs jobId).gasConditions.maxPriorityFeeGwei) ∧
            (0 < (s.jobs jobId).gasConditions.maxTotalFeeGwei →
               env.gasprice / gwei ≤ (s.jobs jobId).gasConditions.maxTotalFeeGwei)) :
    ∃ s' ts, executeTransfer s env jobId = .ok (s', ts) := by
  obtain ⟨hex, hcanl, hstart, hexp, hbase⟩ := canExecuteJob_true_inv hcan
  have hv : _validateExecutionConditions s env (s.jobs jobId) = none := by
    apply validate_none_of hexp ?_ hgas
    intro hle henf
    obtain ⟨hauth, hprio, htot⟩ := hfee henf hle
    exact ⟨hauth, hbase henf hle, hprio, htot⟩
  exact ⟨_, _, executeTransfer_ok_of hex hcanl hnet hstart hv
    (fees_ok_of hbps hamt htr) hgas⟩

/-- C1, witness for the amended theorem: with relayer 42 authorized
(ledger1auth) the same pre-check answer true does yield a successful
execution. -/
theorem canExecuteJob_implies_executeTransfer_witness :
    ∃ s' ts, executeTransfer ledger1auth env1 1 = .ok (s', ts) :=
  canExecuteJob_implies_executeTransfer ledger1auth env1 1 rfl rfl (by decide) (by decide)
    (by decide) (fun t r a => rfl)
    (fun _ _ => ⟨rfl, fun hp => absurd hp (by decide), fun hp => absurd hp (by decide)⟩)

/-- C2: on a successful executeTransfer the job is marked executed,
no other slot changes, and the outbound transfers are exactly the
platform fee floor(amount * feeBps / 10000) to the collector (skipped
when it rounds to zero) followed by amount minus that fee to the
destination; if the destination transfer or a nonzero platform-fee
transfer fails, the whole call returns an error; and an erroring call
leaves the ledger state unchanged (revert semantics), so the job is
still Active and no partial payment is observable. -/
theorem executeTransfer_effects_atomic (s : LedgerState) (env : Env) (jobId : Nat) :
    (∀ s' ts, executeTransfer s env jobId = .ok (s', ts) →
       (s'.jobs jobId).executed = true ∧ (s'.jobs jobId).canceled = false ∧
       (∀ k, ¬ k = jobId → s'.jobs k = s.jobs k) ∧
       ts = feePayout (s.jobs jobId).token s.feeCollector
              ((s.jobs jobId).amount * s.platformFeeBps / 10000) ++
            [{ token := (s.jobs jobId).token, dest := (s.jobs jobId).to_,
               amount := (s.jobs jobId).amount -
                 (s.jobs jobId).amount * s.platformFeeBps / 10000 }]) ∧
    (env.transferOk (s.jobs jobId).token (s.jobs jobId).to_
        ((s.jobs jobId).amount - (s.jobs jobId).amount * s.platformFeeBps / 10000) = false →
       ∀ s' ts, ¬ executeTransfer s env jobId = .ok (s', ts)) ∧
    (0 < (s.jobs jobId).amount * s.platformFeeBps / 10000 →
       env.transferOk (s.jobs jobId).token s.feeCollector
          ((s.jobs jobId).amount * s.platformFeeBps / 10000) = false →
       ∀ s' ts, ¬ executeTransfer s env jobId = .ok (s', ts)) ∧
    ((∀ s' ts, ¬ executeTransfer s env jobId = .ok (s', ts)) →
       applyOp s (.execute env jobId) = s) := by
  refine ⟨?_, ?_, ?_, ?_⟩
  · intro s' ts h
    obtain ⟨hex, hcan, -, -, -, hf, -, hs'⟩ := executeTransfer_ok_inv h
    obtain ⟨-, -, -, -, hts⟩ := _executeTransferWithFees_ok_inv hf
    subst hs'
    refine ⟨?_, ?_, ?_, hts⟩
    · rw [setJob_jobs, if_pos rfl]
    · rw [setJob_jobs, if_pos rfl]
      exact hcan
    · intro k hk
      rw [setJob_jobs, if_neg hk]
  · intro hm s' ts h
    obtain ⟨-, -, -, -, -, hf, -, -⟩ := executeTransfer_ok_inv h
    obtain ⟨-, -, hmain, -, -⟩ := _executeTransferWithFees_ok_inv hf
    rw [hm] at hmain
    exact Bool.noConfusion hmain
  · intro hfee0 hm s' ts h
    obtain ⟨-, -, -, -, -, hf, -, -⟩ := executeTransfer_ok_inv h
    obtain ⟨-, -, -, hfeeok, -⟩ := _executeTransferWithFees_ok_inv hf
    have hc := hfeeok hfee0
    rw [hm] at hc
    exact Bool.noConfusion hc
  · intro hno
    simp only [applyOp]
    cases h : executeTransfer s env jobId with
    | error e => rfl
    | ok r =>
      obtain ⟨s', ts⟩ := r
      exact absurd h (hno s' ts)

/-- C2, witness: the ungated slot-1 job of ledger2 (amount 100, fee
500 bps) executes successfully, is marked executed, and pays exactly
5 to the collector 7 and 95 to the destination 11. -/
theorem executeTransfer_effects_atomic_witness :
    ∃ s' ts, executeTransfer ledger2 env1 1 = .ok (s', ts) ∧
      (s'.jobs 1).executed = true ∧
      ts = [{ token := 0, dest := 7, amount := 5 },
            { token := 0, dest := 11, amount := 95 }] := by
  refine ⟨_, _, rfl, ((executeTransfer_effects_atomic ledger2 env1 1).1 _ _ rfl).1, ?_⟩
  decide

/-- C3: a terminal job (executed or canceled) is frozen: executeTransfer
on it always reverts with the Job-not-active error, cancelTransfer on it
always reverts, both operations leave the ledger unchanged, and no
sequence of contract operations (on any well-formed ledger, under
nonzero chain ids) ever changes the job's record again — so at most one
terminal transition can ever occur for a job. -/
theorem terminal_status_frozen (s : LedgerState) (j : Nat) (hWF : WF s)
    (hterm : (s.jobs j).executed = true ∨ (s.jobs j).canceled = true) :
    (∀ env, executeTransfer s env j = .error "Job not active") ∧
    (∀ env, ∃ e, cancelTransfer s env j = .error e) ∧
    (∀ env, applyOp s (.execute env j) = s) ∧
    (∀ env, applyOp s (.cancel env j) = s) ∧
    (∀ ops, (∀ op ∈ ops, EnvOk op.env) → (applyOps s ops).jobs j = s.jobs j) := by
  have hcond : ((s.jobs j).executed || (s.jobs j).canceled) = true := by
    rcases hterm with ht | ht
    · rw [ht, Bool.true_or]
    · rw [ht, Bool.or_true]
  have hcanc : ∀ env : Env, ∃ e, cancelTransfer s env j = .error e := by
    intro env
    by_cases hc : env.caller = (s.jobs j).from_
    · refine ⟨"Job not active", ?_⟩
      simp only [cancelTransfer]
      rw [if_neg (not_not_intro hc), if_pos hcond]
    · refine ⟨"Not job owner", ?_⟩
      simp only [cancelTransfer]
      rw [if_pos hc]
  refine ⟨fun env => executeTransfer_not_active hterm, hcanc, ?_, ?_, ?_⟩
  · intro env
    simp only [applyOp]
    cases h : executeTransfer s env j with
    | error e => rfl
    | ok r =>
      rw [executeTransfer_not_active hterm] at h
      exact Except.noConfusion h
  · intro env
    simp only [applyOp]
    cases h : cancelTransfer s env j with
    | error e => rfl
    | ok r =>
      obtain ⟨e, he⟩ := hcanc env
      rw [he] at h
      exact Except.noConfusion h
  · intro ops hops
    exact applyOps_terminal_frozen hWF hops hterm

/-- C3, witness: in ledger3 the slot-1 job is already executed, and a
further executeTransfer reverts with the Job-not-active error. -/
theorem terminal_status_frozen_witness :
    executeTransfer ledger3 env1 1 = .error "Job not active" := by
  have hWF : WF ledger3 := by
    intro k hk
    have hcount : ledger3.jobCount = 1 := rfl
    rw [hcount] at hk
    show (if k = 1 then { job1 with executed := true } else defaultJob) = defaultJob
    rw [if_neg (by omega)]
  exact (terminal_status_frozen ledger3 1 hWF (Or.inl rfl)).1 env1

/-- C4, counterexample: executing a jobId that no create call ever
assigned does not fail with the Job-not-active error.  On the freshly
constructed ledger, executeTransfer 1 passes the active check (the
zero-valued record has both status flags false) and reverts with
Wrong network instead, because the default record's chain id 0 differs
from the caller's chain id 1. -/
theorem executeTransfer_missing_job_not_jobNotActive :
    executeTransfer (initialState 5 0 7) env1 1 = .error "Wrong network" ∧
    ¬ executeTransfer (initialState 5 0 7) env1 1 = .error "Job not active" := by
  refine ⟨rfl, ?_⟩
  intro h
  have h1 : executeTransfer (initialState 5 0 7) env1 1 = .error "Wrong network" := rfl
  have h2 := h1.symm.trans h
  injection h2 with h3
  exact absurd h3 (by decide)

/-- C4, amended: executeTransfer's guards run in a fixed order with the
first failure winning — not-active, then wrong-network, then too-early,
then the window check (expiry requires executeOnExpiry, and expiry with
executeOnExpiry bypasses the fee gate entirely), then, inside the
window with the gate enforced, relayer authorization before the fee
ceilings.  For a jobId never assigned (0 or above jobCount) the call
still fails, but with the Wrong-network error (under a nonzero chain
id), not the Job-not-active error the claim predicted. -/
theorem executeTransfer_guard_order (s : LedgerState) (env : Env) (jobId : Nat) :
    (((s.jobs jobId).executed = true ∨ (s.jobs jobId).canceled = true) →
        executeTransfer s env jobId = .error "Job not active") ∧
    ((s.jobs jobId).executed = false → (s.jobs jobId).canceled = false →
        ¬ env.chainid = (s.jobs jobId).chainId →
        executeTransfer s env jobId = .error "Wrong network") ∧
    ((s.jobs jobId).executed = false → (s.jobs jobId).canceled = false →
        env.chainid = (s.jobs jobId).chainId →
        env.now < (s.jobs jobId).timeWindow.startTime →
        executeTransfer s env jobId = .error "Too early") ∧
    ((s.jobs jobId).executed = false → (s.jobs jobId).canceled = false →
        env.chainid = (s.jobs jobId).chainId →
        (s.jobs jobId).timeWindow.startTime ≤ env.now →
        (s.jobs jobId).timeWindow.endTime < env.now →
        (s.jobs jobId).timeWindow.executeOnExpiry = false →
        executeTransfer s env jobId = .error "Window expired") ∧
    ((s.jobs jobId).timeWindow.endTime < env.now →
        (s.jobs jobId).timeWindow.executeOnExpiry = true →
        _validateExecutionConditions s env (s.jobs jobId) = none) ∧
    (env.now ≤ (s.jobs jobId).timeWindow.endTime →
        (s.jobs jobId).gasConditions.enforceConditions = true →
        s.authorizedRelayers env.caller = false →
        _validateExecutionConditions s env (s.jobs jobId) =
          some "Only authorized relayers can execute") ∧
    (WF s → 0 < env.chainid → (jobId = 0 ∨ s.jobCount < jobId) →
        executeTransfer s env jobId = .error "Wrong network") := by
  refine ⟨executeTransfer_not_active, executeTransfer_wrong_network,
    executeTransfer_too_early, ?_,
    fun hend hexp => validate_expired_bypass hend hexp,
    fun hle henf hauth => validate_unauthorized hle henf hauth, ?_⟩
  · intro hex hcan hnet hstart hend hexp
    refine executeTransfer_of_validate_error hex hcan hnet hstart ?_
    unfold _validateExecutionConditions
    rw [if_pos hend, if_neg (by rw [hexp]; exact fun hh => Bool.noConfusion hh)]
  · intro hWF hc hk
    have hd := hWF jobId hk
    refine executeTransfer_wrong_network ?_ ?_ ?_
    · rw [hd]
      rfl
    · rw [hd]
      rfl
    · rw [hd]
      intro hh
      have h0 : env.chainid = 0 := hh
      omega

/-- C4, witness: the guard-order theorem applied to the fresh ledger and
an unassigned job id yields the Wrong-network error. -/
theorem executeTransfer_guard_order_witness :
    executeTransfer (initialState 5 0 7) env1 1 = .error "Wrong network" :=
  (executeTransfer_guard_order (initialState 5 0 7) env1 1).2.2.2.2.2.2
    (fun k _ => rfl) (by decide) (Or.inr (by decide))

/-- C5, counterexample: a job with an enforced fee gate and all three
ceilings unset (zero) does not pass the fee checks at every observed
fee.  In ledger5 the authorized relayer 42 executes inside the window
at a 5 gwei base fee, and the call reverts with Base fee too high: the
contract compares the base fee against maxBaseFeeGwei unconditionally,
treating the unset ceiling as a zero ceiling. -/
theorem fee_gate_unset_base_rejected :
    (ledger5.jobs 1).gasConditions.enforceConditions = true ∧
    (ledger5.jobs 1).gasConditions.maxBaseFeeGwei = 0 ∧
    (ledger5.jobs 1).gasConditions.maxPriorityFeeGwei = 0 ∧
    (ledger5.jobs 1).gasConditions.maxTotalFeeGwei = 0 ∧
    ledger5.authorizedRelayers env5.caller = true ∧
    (ledger5.jobs 1).timeWindow.startTime ≤ env5.now ∧
    env5.now ≤ (ledger5.jobs 1).timeWindow.endTime ∧
    executeTransfer ledger5 env5 1 = .error "Base fee too high" :=
  ⟨rfl, rfl, rfl, rfl, rfl, by decide, by decide, rfl⟩

/-- C5, amended: when the fee gate is evaluated (inside the window,
enforced, authorized caller, and a gas price at least the base fee),
the validation passes exactly when the observed base fee meets
maxBaseFeeGwei — this check is never skipped, a zero ceiling included —
while the priority-fee and total-fee checks are skipped when their
ceilings are unset (zero). -/
theorem fee_gate_set_ceilings_iff (s : LedgerState) (env : Env) (job : TransferJob)
    (hwin : env.now ≤ job.timeWindow.endTime)
    (henf : job.gasConditions.enforceConditions = true)
    (hauth : s.authorizedRelayers env.caller = true)
    (hgas : env.basefee ≤ env.gasprice) :
    _validateExecutionConditions s env job = none ↔
      (env.basefee / gwei ≤ job.gasConditions.maxBaseFeeGwei ∧
       (0 < job.gasConditions.maxPriorityFeeGwei →
          (env.gasprice - env.basefee) / gwei ≤ job.gasConditions.maxPriorityFeeGwei) ∧
       (0 < job.gasConditions.maxTotalFeeGwei →
          env.gasprice / gwei ≤ job.gasConditions.maxTotalFeeGwei)) := by
  unfold _validateExecutionConditions
  rw [if_neg (Nat.not_lt.mpr hwin)]
  rw [if_neg (by rw [henf]; exact fun hh => Bool.noConfusion hh)]
  rw [if_neg (by rw [hauth]; exact fun hh => Bool.noConfusion hh)]
  constructor
  · intro h
    split_ifs at h with h1 h2 h3 h4
    refine ⟨h1, fun hp => ?_, fun hp => ?_⟩
    · by_contra hn
      exact h3 ⟨hp, hn⟩
    · by_contra hn
      exact h4 ⟨hp, hn⟩
  · rintro ⟨hb, hp, ht⟩
    rw [if_neg (not_not_intro hb)]
    rw [if_neg (by rintro ⟨-, hlt⟩; omega)]
    rw [if_neg (by rintro ⟨hp0, hn⟩; exact hn (hp hp0))]
    rw [if_neg (by rintro ⟨ht0, hn⟩; exact hn (ht ht0))]

/-- C5, witness: for the slot-1 job of ledger1auth (base ceiling
100 gwei set, priority and total unset) at a 50 gwei base fee the
validation passes. -/
theorem fee_gate_set_ceilings_iff_witness :
    _validateExecutionConditions ledger1auth env1 job1 = none :=
  (fee_gate_set_ceilings_iff ledger1auth env1 job1 (by decide) rfl rfl (by decide)).mpr
    ⟨by decide, fun hp => absurd hp (by decide), fun hp => absurd hp (by decide)⟩

/-- C6: cancelTransfer succeeds exactly when the caller is the job's
owner, the job is Active, and now is strictly before the window end
(given the refund transfer succeeds); on success the job is Canceled
(never Executed) and the single refund transfer returns the full amount
to the owner with no platform fee deducted; and with the owner calling
on an Active job at now equal to the window end the call reverts with
the Window-expired error. -/
theorem cancelTransfer_spec (s : LedgerState) (env : Env) (jobId : Nat)
    (hrefund : ∀ t r a, env.transferOk t r a = true) :
    ((∃ s' ts, cancelTransfer s env jobId = .ok (s', ts)) ↔
       (env.caller = (s.jobs jobId).from_ ∧ (s.jobs jobId).executed = false ∧
        (s.jobs jobId).canceled = false ∧
        env.now < (s.jobs jobId).timeWindow.endTime)) ∧
    (∀ s' ts, cancelTransfer s env jobId = .ok (s', ts) →
       (s'.jobs jobId).canceled = true ∧ (s'.jobs jobId).executed = false ∧
       ts = [{ token := (s.jobs jobId).token, dest := (s.jobs jobId).from_,
               amount := (s.jobs jobId).amount }]) ∧
    (env.caller = (s.jobs jobId).from_ → (s.jobs jobId).executed = false →
       (s.jobs jobId).canceled = false → (s.jobs jobId).timeWindow.endTime ≤ env.now →
       cancelTransfer s env jobId = .error "Window expired") := by
  refine ⟨⟨?_, ?_⟩, ?_, ?_⟩
  · rintro ⟨s', ts, h⟩
    obtain ⟨hc, hex, hcan, hend, -, -⟩ := cancelTransfer_ok_inv h
    exact ⟨hc, hex, hcan, hend⟩
  · rintro ⟨hc, hex, hcan, hend⟩
    refine ⟨setJob s jobId { s.jobs jobId with canceled := true },
            [{ token := (s.jobs jobId).token, dest := (s.jobs jobId).from_,
               amount := (s.jobs jobId).amount }], ?_⟩
    simp only [cancelTransfer]
    rw [if_neg (not_not_intro hc)]
    rw [if_neg (by rw [hex, hcan]; exact fun hh => Bool.noConfusion hh)]
    rw [if_neg (not_not_intro hend)]
    by_cases ht : (s.jobs jobId).token = 0
    · rw [if_pos ht]
      rw [if_neg (by rw [hrefund]; exact fun hh => Bool.noConfusion hh)]
      rw [ht]
    · rw [if_neg ht]
      rw [if_neg (by rw [hrefund]; exact fun hh => Bool.noConfusion hh)]
  · intro s' ts h
    obtain ⟨-, hex, -, -, hs', hts⟩ := cancelTransfer_ok_inv h
    subst hs'
    refine ⟨?_, ?_, hts⟩
    · rw [setJob_jobs, if_pos rfl]
    · rw [setJob_jobs, if_pos rfl]
      exact hex
  · intro hc hex hcan hend
    simp only [cancelTransfer]
    rw [if_neg (not_not_intro hc)]
    rw [if_neg (by rw [hex, hcan]; exact fun hh => Bool.noConfusion hh)]
    rw [if_pos (Nat.not_lt.mpr hend)]

/-- C6, witness: the owner cancels the Active slot-1 job of ledger2 at
now = 99 (the window end is 100) successfully, and at now = 100 the
same call reverts with the Window-expired error. -/
theorem cancelTransfer_spec_witness :
    (∃ s' ts, cancelTransfer ledger2 env6 1 = .ok (s', ts)) ∧
    cancelTransfer ledger2 { env6 with now := 100 } 1 = .error "Window expired" := by
  constructor
  · exact ((cancelTransfer_spec ledger2 env6 1 (fun t r a => rfl)).1).mpr
      ⟨rfl, rfl, rfl, by decide⟩
  · exact (cancelTransfer_spec ledger2 { env6 with now := 100 } 1 (fun t r a => rfl)).2.2
      rfl rfl rfl (by decide)

/-- C7: scheduleTransfer rejects, in order, a null destination, a zero
amount, a start time in the past, and a window whose end does not
exceed its start; a native job whose call value differs from amount and
a token job accompanied by native value are rejected; and on success
the fresh job id is jobCount + 1 — strictly greater than every
previously assigned id on a well-formed ledger — the stored record is
Active with the caller as owner, the caller's nonce is recorded and
incremented, a native job carries exactly amount as call value with no
token pull, and a token job pulls exactly amount from the caller. -/
theorem scheduleTransfer_spec (s : LedgerState) (env : Env) (to_ token amount : Nat)
    (gc : GasConditions) (tw : TimeWindow) (p : String) (hWF : WF s) :
    (to_ = 0 → scheduleTransfer s env to_ token amount gc tw p = .error "Invalid recipient") ∧
    (¬ to_ = 0 → amount = 0 →
        scheduleTransfer s env to_ token amount gc tw p = .error "Amount must be > 0") ∧
    (¬ to_ = 0 → ¬ amount = 0 → tw.startTime < env.now →
        scheduleTransfer s env to_ token amount gc tw p = .error "Start time in past") ∧
    (¬ to_ = 0 → ¬ amount = 0 → env.now ≤ tw.startTime → tw.endTime ≤ tw.startTime →
        scheduleTransfer s env to_ token amount gc tw p = .error "Invalid time window") ∧
    (¬ to_ = 0 → ¬ amount = 0 → env.now ≤ tw.startTime → tw.startTime < tw.endTime →
        token = 0 → ¬ env.msgValue = amount →
        scheduleTransfer s env to_ token amount gc tw p = .error "ETH amount mismatch") ∧
    (¬ to_ = 0 → ¬ amount = 0 → env.now ≤ tw.startTime → tw.startTime < tw.endTime →
        ¬ token = 0 → ¬ env.msgValue = 0 →
        scheduleTransfer s env to_ token amount gc tw p =
          .error "Do not send ETH for token transfer") ∧
    (∀ s' jobId ts, scheduleTransfer s env to_ token amount gc tw p = .ok (s', jobId, ts) →
        jobId = s.jobCount + 1 ∧ s'.jobCount = s.jobCount + 1 ∧
        (∀ k, ¬ s.jobs k = defaultJob → k < jobId) ∧
        s'.jobs jobId = newJobRecord s env to_ token amount gc tw p ∧
        (s'.jobs jobId).executed = false ∧ (s'.jobs jobId).canceled = false ∧
        (s'.jobs jobId).from_ = env.caller ∧
        (s'.jobs jobId).nonce = s.userNonces env.caller ∧
        s'.userNonces env.caller = s.userNonces env.caller + 1 ∧
        (token = 0 → env.msgValue = amount ∧ ts = []) ∧
        (¬ token = 0 → env.msgValue = 0 ∧ env.pullOk = true ∧
           ts = [{ token := token, dest := env.caller, amount := amount }])) := by
  refine ⟨?_, ?_, ?_, ?_, ?_, ?_, ?_⟩
  · intro h1
    unfold scheduleTransfer
    rw [if_pos h1]
  · intro h1 h2
    unfold scheduleTransfer
    rw [if_neg h1, if_pos h2]
  · intro h1 h2 h3
    unfold scheduleTransfer
    rw [if_neg h1, if_neg h2, if_pos h3]
  · intro h1 h2 h3 h4
    unfold scheduleTransfer
    rw [if_neg h1, if_neg h2, if_neg (Nat.not_lt.mpr h3), if_pos (Nat.not_lt.mpr h4)]
  · intro h1 h2 h3 h4 h5 h6
    unfold scheduleTransfer
    rw [if_neg h1, if_neg h2, if_neg (Nat.not_lt.mpr h3), if_neg (not_not_intro h4),
        if_pos h5, if_pos h6]
  · intro h1 h2 h3 h4 h5 h6
    unfold scheduleTransfer
    rw [if_neg h1, if_neg h2, if_neg (Nat.not_lt.mpr h3), if_neg (not_not_intro h4),
        if_neg h5, if_pos h6]
  · intro s' jobId ts h
    obtain ⟨hs', hid, -, -, -, -, hnat, htok⟩ := scheduleTransfer_ok_inv h
    subst hs'
    subst hid
    refine ⟨rfl, rfl, ?_, ?_, ?_, ?_, ?_, ?_, ?_, hnat, htok⟩
    · intro k hk
      by_contra hlt
      exact hk (hWF k (Or.inr (by omega)))
    · rw [scheduledState_jobs, if_pos rfl]
    · rw [scheduledState_jobs, if_pos rfl]
      rfl
    · rw [scheduledState_jobs, if_pos rfl]
      rfl
    · rw [scheduledState_jobs, if_pos rfl]
      rfl
    · rw [scheduledState_jobs, if_pos rfl]
      rfl
    · rw [scheduledState_userNonces, if_pos rfl]

/-- C7, witness: scheduling a native transfer of 100 to recipient 11 on
the fresh ledger returns job id 1 = jobCount + 1. -/
theorem scheduleTransfer_spec_witness :
    ∃ r, scheduleTransfer (initialState 5 0 7) envSched 11 0 100 gcW twW "pay" = .ok r ∧
      r.2.1 = (initialState 5 0 7).jobCount + 1 := by
  refine ⟨_, rfl, ?_⟩
  exact ((scheduleTransfer_spec (initialState 5 0 7) envSched 11 0 100 gcW twW "pay"
    (fun k _ => rfl)).2.2.2.2.2.2 _ _ _ rfl).1

/-- C8, counterexample: the watcher closes the WatchEntry of a job that
is still Active and inside its execution window when the canExecuteJob
pre-check returns false (for example after a transient base-fee spike
between the oracle check and the on-chain view): checkJob with a
successful fetch, the oracle gate met, a successful pre-check call
returning false, closes the entry instead of leaving it open for the
next poll. -/
theorem watcher_precheck_false_closes :
    job1.executed = false ∧ job1.canceled = false ∧
    job1.timeWindow.startTime ≤ 10 ∧ 10 ≤ job1.timeWindow.endTime ∧
    checkJob true job1 10 true true true false true true = .close :=
  ⟨rfl, rfl, by decide, by decide, rfl⟩

/-- C8, amended: one watcher evaluation keeps the entry open on a fetch
error, before the window, on an oracle error or an unmet oracle gate,
on a pre-check call error, on a submission failure, and on a
confirmation failure; it closes the entry on a terminal job, on an
expired window without executeOnExpiry, on a confirmed execution — and
also whenever the canExecuteJob pre-check returns false, even though
the job may still be Active and executable. -/
theorem watcher_close_retention (fetchOk : Bool) (job : TransferJob) (now : Nat)
    (oracleOk oracleMeets preCheckOk preCheck submitOk confirmOk : Bool) :
    (fetchOk = false →
       checkJob fetchOk job now oracleOk oracleMeets preCheckOk preCheck submitOk confirmOk
         = .keep) ∧
    (fetchOk = true → (job.executed = true ∨ job.canceled = true) →
       checkJob fetchOk job now oracleOk oracleMeets preCheckOk preCheck submitOk confirmOk
         = .close) ∧
    (fetchOk = true → job.executed = false → job.canceled = false →
       now < job.timeWindow.startTime →
       checkJob fetchOk job now oracleOk oracleMeets preCheckOk preCheck submitOk confirmOk
         = .keep) ∧
    (fetchOk = true → job.executed = false → job.canceled = false →
       job.timeWindow.startTime ≤ now → job.timeWindow.endTime < now →
       job.timeWindow.executeOnExpiry = false →
       checkJob fetchOk job now oracleOk oracleMeets preCheckOk preCheck submitOk confirmOk
         = .close) ∧
    (fetchOk = true → job.executed = false → job.canceled = false →
       job.timeWindow.startTime ≤ now → ¬ job.timeWindow.endTime < now →
       job.gasConditions.enforceConditions = true → oracleOk = true → oracleMeets = false →
       checkJob fetchOk job now oracleOk oracleMeets preCheckOk preCheck submitOk confirmOk
         = .keep) ∧
    (preCheckOk = false → executeJob preCheckOk preCheck submitOk confirmOk = .keep) ∧
    (preCheckOk = true → preCheck = true → submitOk = false →
       executeJob preCheckOk preCheck submitOk confirmOk = .keep) ∧
    (preCheckOk = true → preCheck = true → submitOk = true → confirmOk = false →
       executeJob preCheckOk preCheck submitOk confirmOk = .keep) ∧
    (preCheckOk = true → preCheck = true → submitOk = true → confirmOk = true →
       executeJob preCheckOk preCheck submitOk confirmOk = .close) ∧
    (preCheckOk = true → preCheck = false →
       executeJob preCheckOk preCheck submitOk confirmOk = .close) := by
  refine ⟨?_, ?_, ?_, ?_, ?_, ?_, ?_, ?_, ?_, ?_⟩
  · intro h
    simp [checkJob, h]
  · intro hf ht
    rcases ht with ht | ht <;> simp [checkJob, hf, ht]
  · intro hf hex hcan hlt
    simp [checkJob, hf, hex, hcan, hlt]
  · intro hf hex hcan hstart hend hexp
    simp [checkJob, hf, hex, hcan, hend, hexp, Nat.not_lt.mpr hstart]
  · intro hf hex hcan hstart hnend henf horc hnm
    simp [checkJob, hf, hex, hcan, hnend, henf, horc, hnm, Nat.not_lt.mpr hstart]
  · intro h
    simp [executeJob, h]
  · intro h1 h2 h3
    simp [executeJob, h1, h2, h3]
  · intro h1 h2 h3 h4
    simp [executeJob, h1, h2, h3, h4]
  · intro h1 h2 h3 h4
    simp [executeJob, h1, h2, h3, h4]
  · intro h1 h2
    simp [executeJob, h1, h2]

/-- C8, witness: a failed submission with a passing pre-check leaves
the entry open. -/
theorem watcher_close_retention_witness :
    executeJob true true false true = .keep :=
  (watcher_close_retention true job1 10 true true true true false
    true).2.2.2.2.2.2.1 rfl rfl rfl

/-- C9: findCheapestNetwork returns none exactly when no candidate
fetch succeeded; otherwise it returns a successful comparison whose
totalFee is minimal among all successful candidates, and the returned
comparison is the first such minimum in candidate order: every earlier
successful candidate is strictly more expensive and every later one at
least as expensive. -/
theorem findCheapestNetwork_spec (comparisons : List (Option L2GasComparison)) :
    (findCheapestNetwork comparisons = none ↔ comparisons.filterMap id = []) ∧
    (∀ c, findCheapestNetwork comparisons = some c →
       c ∈ comparisons.filterMap id ∧
       (∀ d ∈ comparisons.filterMap id,
          c.gasPrices.totalFeeGwei ≤ d.gasPrices.totalFeeGwei) ∧
       ∃ l₁ l₂, comparisons.filterMap id = l₁ ++ c :: l₂ ∧
         (∀ d ∈ l₁, c.gasPrices.totalFeeGwei < d.gasPrices.totalFeeGwei) ∧
         (∀ d ∈ l₂, c.gasPrices.totalFeeGwei ≤ d.gasPrices.totalFeeGwei)) := by
  constructor
  · unfold findCheapestNetwork
    cases h : comparisons.filterMap id with
    | nil => simp
    | cons a l => simp
  · intro c hc
    unfold findCheapestNetwork at hc
    cases h : comparisons.filterMap id with
    | nil =>
      rw [h] at hc
      exact Option.noConfusion hc
    | cons a l =>
      rw [h] at hc
      injection hc with hc
      obtain ⟨l₁, l₂, hsplit, h₁, h₂⟩ := foldl_cheaperOf_split l a
      rw [hc] at hsplit h₁ h₂
      refine ⟨?_, ?_, l₁, l₂, hsplit, h₁, h₂⟩
      · rw [hsplit]
        exact List.mem_append_right l₁ (List.mem_cons_self c l₂)
      · intro d hd
        rw [hsplit] at hd
        rcases List.mem_append.mp hd with hd | hd
        · exact le_of_lt (h₁ d hd)
        · rcases List.mem_cons.mp hd with rfl | hd
          · exact le_refl _
          · exact h₂ d hd

/-- C9, witness: among Arbitrum at 5 gwei, a failed fetch, Optimism at
3 gwei and Base at 3 gwei, the comparator returns Optimism — the first
of the two tied minima — and the successful-candidate list is nonempty,
matching the none-iff-empty characterization. -/
theorem findCheapestNetwork_spec_witness :
    findCheapestNetwork [some compA, none, some compB, some compC] = some compB ∧
    ¬ [some compA, none, some compB, some compC].filterMap id
        = ([] : List L2GasComparison) := by
  constructor
  · decide
  · intro hnil
    have h2 := (findCheapestNetwork_spec [some compA, none, some compB, some compC]).1.mpr hnil
    have h3 : findCheapestNetwork [some compA, none, some compB, some compC] = some compB := by
      decide
    rw [h2] at h3
    exact Option.noConfusion h3

/-- C10: after any sequence of contract operations from the freshly
constructed ledger (under nonzero chain ids), the public read getJob is
total and returns, for every id no create call has assigned — id 0 and
every id above the current jobCount — the all-default record: zero
owner, destination and token, zero amount, and both status flags
false.  The read interface therefore cannot distinguish a never-created
job from its zero-valued record. -/
theorem getJob_unassigned_default (deployer feeBps collector : Nat) (ops : List Op) (j : Nat)
    (hops : ∀ op ∈ ops, EnvOk op.env)
    (hj : j = 0 ∨ (applyOps (initialState deployer feeBps collector) ops).jobCount < j) :
    getJob (applyOps (initialState deployer feeBps collector) ops) j = defaultJob ∧
    (getJob (applyOps (initialState deployer feeBps collector) ops) j).from_ = 0 ∧
    (getJob (applyOps (initialState deployer feeBps collector) ops) j).to_ = 0 ∧
    (getJob (applyOps (initialState deployer feeBps collector) ops) j).token = 0 ∧
    (getJob (applyOps (initialState deployer feeBps collector) ops) j).amount = 0 ∧
    (getJob (applyOps (initialState deployer feeBps collector) ops) j).executed = false ∧
    (getJob (applyOps (initialState deployer feeBps collector) ops) j).canceled = false := by
  have hWF : WF (applyOps (initialState deployer feeBps collector) ops) :=
    applyOps_WF (fun k _ => rfl) hops
  have hd : getJob (applyOps (initialState deployer feeBps collector) ops) j = defaultJob :=
    hWF j hj
  refine ⟨hd, ?_, ?_, ?_, ?_, ?_, ?_⟩ <;> rw [hd]
  <;> rfl

/-- C10, witness: on the fresh ledger the read of unassigned id 3
returns the all-default record. -/
theorem getJob_unassigned_default_witness :
    getJob (applyOps (initialState 5 0 7) []) 3 = defaultJob :=
  (getJob_unassigned_default 5 0 7 [] 3 (fun op h => absurd h (List.not_mem_nil op))
    (Or.inr (by decide))).1

end Zegas
